import Mathlib

/-!
Verification of the metrics-reporting layer of `boomer` (src/output.go):
the pure derivation functions (median / average / rolling-rate / failure
ratio), the snapshot decoder `convertData` / `deserializeStatsEntry`
built on Go type assertions and a JSON marshal/unmarshal round trip, and
the pure core of the two sink `OnEvent` handlers.

Modelling conventions:
- Go `int64` / `int32` are modelled as `Int` (no arithmetic in the code
  can overflow for the inputs the claims quantify over; Go division and
  `(numRequests-1)/2` truncate toward zero, hence `Int.tdiv`).
- Go `float64` is modelled as `Rat`: the only float operations are exact
  divisions guarded against a zero divisor.
- A Go map `map[K]V` is modelled as an association list `List (K × V)`;
  a list that stands for a map has pairwise distinct keys, which theorems
  assume explicitly where it matters.  `len(m)` is the list length and
  map indexing is `find?` on the key.
-/

namespace Boomer

/-- A dynamically typed Go value (an `interface` value) as it occurs in the
raw event payload `map[string]interface\x7b\x7d` handed to `OnEvent`.  The
constructors record the dynamic type, which Go type assertions inspect:
`rInt32`, `rInt`, `rInt64` and `rFloat64` are distinct dynamic types even
when they hold the same number.  `rNil` is the nil interface value, which is
also what indexing a Go map at a missing key returns. -/
inductive RawVal where
  | rNil : RawVal
  | rInt32 (n : Int) : RawVal
  | rInt (n : Int) : RawVal
  | rInt64 (n : Int) : RawVal
  | rFloat64 (q : Rat) : RawVal
  | rString (s : String) : RawVal
  | rList (xs : List RawVal) : RawVal
  | rMap (fields : List (String × RawVal)) : RawVal
  | rIntMap (m : List (Int × Int)) : RawVal

/-- Indexing the raw event map, `data[key]` in Go: the bound value if the
key is present, the nil interface value otherwise. -/
def rawLookup (data : List (String × RawVal)) (key : String) : RawVal :=
  match data.find? (fun p => p.1 == key) with
  | some p => p.2
  | none => .rNil

/-- Indexing a `map[int64]int64` (`responseTimes[k]` in Go); a missing key
yields the zero value, though the walk below only looks up its own keys. -/
def mapGet (m : List (Int × Int)) (k : Int) : Int :=
  match m.find? (fun p => p.1 == k) with
  | some p => p.2
  | none => 0

/-- The loop body of `getMedianResponseTime` (src/output.go:65-71): walk the
keys in order, break with the current key once `pos < responseTimes[k]`,
otherwise subtract the bucket count from `pos`; the initial value 0 of
`medianResponseTime` survives when the loop never breaks. -/
def medianWalk (pos : Int) (keys : List Int) (counts : Int → Int) : Int :=
  match keys with
  | [] => 0
  | k :: rest => if pos < counts k then k else medianWalk (pos - counts k) rest counts

/-- src/output.go:54-74 `getMedianResponseTime`: 0 for an empty histogram,
otherwise walk the buckets in ascending key order starting the position
counter at `(numRequests - 1) / 2` (Go division truncates toward zero).
Go's `sort.Slice` with the `<` comparator is modelled by an insertion sort:
the source promises only an ascending arrangement of the distinct keys. -/
def getMedianResponseTime (numRequests : Int) (responseTimes : List (Int × Int)) : Int :=
  if responseTimes.isEmpty then 0
  else
    let pos := (numRequests - 1).tdiv 2
    let sortedKeys := (responseTimes.map Prod.fst).insertionSort (· ≤ ·)
    medianWalk pos sortedKeys (mapGet responseTimes)

/-- src/output.go:76-82 `getAvgResponseTime`: `totalResponseTime / numRequests`
as a float, 0.0 when `numRequests` is 0. -/
def getAvgResponseTime (numRequests totalResponseTime : Int) : Rat :=
  if numRequests ≠ 0 then (totalResponseTime : Rat) / (numRequests : Rat) else 0

/-- src/output.go:84-90 `getAvgContentLength`: integer division
`totalContentLength / numRequests`, 0 when `numRequests` is 0. -/
def getAvgContentLength (numRequests totalContentLength : Int) : Int :=
  if numRequests ≠ 0 then totalContentLength.tdiv numRequests else 0

/-- src/output.go:92-99 `getCurrentRps`: `numRequests` divided by the number
of entries of the `numReqsPerSecond` map, 0 for an empty map. -/
def getCurrentRps (numRequests : Int) (numReqsPerSecond : List (Int × Int)) : Int :=
  let numReqsPerSecondLength : Int := numReqsPerSecond.length
  if numReqsPerSecondLength ≠ 0 then numRequests.tdiv numReqsPerSecondLength else 0

/-- src/output.go:101-108 `getCurrentFailPerSec`: `numFailures` divided by
the number of entries of the `numFailPerSecond` map, 0 for an empty map. -/
def getCurrentFailPerSec (numFailures : Int) (numFailPerSecond : List (Int × Int)) : Int :=
  let numFailPerSecondLength : Int := numFailPerSecond.length
  if numFailPerSecondLength ≠ 0 then numFailures.tdiv numFailPerSecondLength else 0

/-- src/output.go:110-115 `getTotalFailRatio`: `totalFailures / totalRequests`
as a float, 0 when `totalRequests` is 0. -/
def getTotalFailRatio (totalRequests totalFailures : Int) : Rat :=
  if totalRequests = 0 then 0 else (totalFailures : Rat) / (totalRequests : Rat)

/-- The spec's description of the median computation, stated independently of
the running-counter loop: with position `(numRequests-1)/2`, return the first
key (in ascending order) whose bucket count exceeds the position remaining
after the counts of all earlier keys are taken out, and 0 when the histogram
is empty or no key qualifies. -/
def medianFromSpec (numRequests : Int) (responseTimes : List (Int × Int)) : Int :=
  if responseTimes.isEmpty then 0
  else
    let pos := (numRequests - 1).tdiv 2
    let counts := mapGet responseTimes
    let keys := (responseTimes.map Prod.fst).insertionSort (· ≤ ·)
    match (List.range keys.length).find?
        (fun i => decide (pos - ((keys.take i).map counts).sum < counts (keys.getD i 0))) with
    | some i => keys.getD i 0
    | none => 0

theorem medianWalk_eq_specSearch (counts : Int → Int) :
    ∀ (keys : List Int) (pos : Int),
      medianWalk pos keys counts =
        (match (List.range keys.length).find?
            (fun i => decide (pos - ((keys.take i).map counts).sum < counts (keys.getD i 0))) with
        | some i => keys.getD i 0
        | none => 0) := by
  intro keys
  induction keys with
  | nil => intro pos; simp [medianWalk]
  | cons k rest ih =>
    intro pos
    rw [medianWalk]
    by_cases h : pos < counts k
    · simp [List.length_cons, List.range_succ_eq_map, List.find?_cons, h]
    · have hrange : (List.range (k :: rest).length).find?
          (fun i => decide (pos - (((k :: rest).take i).map counts).sum <
            counts ((k :: rest).getD i 0))) =
          Option.map (· + 1) ((List.range rest.length).find?
            (fun i => decide ((pos - counts k) - ((rest.take i).map counts).sum <
              counts (rest.getD i 0)))) := by
        rw [List.length_cons, List.range_succ_eq_map, List.find?_cons]
        have h0 : (decide (pos - (((k :: rest).take 0).map counts).sum <
            counts ((k :: rest).getD 0 0))) = false := by
          simp [h]
        rw [h0, List.find?_map]
        have hfun : ((fun i => decide (pos - (((k :: rest).take i).map counts).sum <
              counts ((k :: rest).getD i 0))) ∘ (· + 1)) =
            (fun i => decide ((pos - counts k) - ((rest.take i).map counts).sum <
              counts (rest.getD i 0))) := by
          funext i
          simp only [Function.comp_apply, List.take_succ_cons, List.map_cons, List.sum_cons,
            List.getD_cons_succ]
          apply decide_eq_decide.mpr
          constructor <;> intro hlt <;> linarith
        rw [hfun]
      rw [if_neg h, hrange, ih (pos - counts k)]
      cases (List.range rest.length).find?
          (fun i => decide ((pos - counts k) - ((rest.take i).map counts).sum <
            counts (rest.getD i 0))) with
      | none => simp
      | some i => simp

theorem getMedianResponseTime_eq_medianFromSpec (n : Int) (l : List (Int × Int)) :
    getMedianResponseTime n l = medianFromSpec n l := by
  unfold getMedianResponseTime medianFromSpec
  by_cases h : l.isEmpty
  · simp [h]
  · simp only [h, if_false]
    exact medianWalk_eq_specSearch (mapGet l) _ _

/-- The value a map lookup returns comes from the list (or is 0), so a
pointwise bound on the stored counts bounds every lookup. -/
theorem mapGet_nonneg (l : List (Int × Int)) (hpos : ∀ p ∈ l, 0 ≤ p.2) (k : Int) :
    0 ≤ mapGet l k := by
  unfold mapGet
  cases hf : l.find? (fun p => p.1 == k) with
  | none => simp
  | some p => exact hpos p (List.mem_of_find?_eq_some hf)

theorem medianWalk_eq_zero_of_counts_le (counts : Int → Int) :
    ∀ (keys : List Int) (pos : Int), (∀ k ∈ keys, 0 ≤ counts k) →
      (keys.map counts).sum ≤ pos → medianWalk pos keys counts = 0 := by
  intro keys
  induction keys with
  | nil => intro pos _ _; rfl
  | cons k rest ih =>
    intro pos hpos hsum
    rw [medianWalk]
    simp only [List.map_cons, List.sum_cons] at hsum
    have hrest : 0 ≤ (rest.map counts).sum := by
      apply List.sum_nonneg
      intro x hx
      obtain ⟨a, ha, rfl⟩ := List.mem_map.mp hx
      exact hpos a (List.mem_cons_of_mem _ ha)
    have hk : ¬ pos < counts k := by linarith
    rw [if_neg hk]
    exact ih (pos - counts k) (fun a ha => hpos a (List.mem_cons_of_mem _ ha)) (by linarith)

/-- On an association list with pairwise distinct keys, looking each key up
again recovers exactly the stored values. -/
theorem map_mapGet_keys (l : List (Int × Int)) (hnd : (l.map Prod.fst).Nodup) :
    (l.map Prod.fst).map (mapGet l) = l.map Prod.snd := by
  induction l with
  | nil => rfl
  | cons p rest ih =>
    simp only [List.map_cons, List.nodup_cons] at hnd ⊢
    have h1 : mapGet (p :: rest) p.1 = p.2 := by
      unfold mapGet
      rw [List.find?_cons_of_pos _ (by simp)]
    have hrest : ∀ k ∈ rest.map Prod.fst, mapGet (p :: rest) k = mapGet rest k := by
      intro k hk
      have hne : (p.1 == k) = false := by
        simp only [beq_eq_false_iff_ne, ne_eq]
        intro heq
        exact hnd.1 (heq ▸ hk)
      simp [mapGet, List.find?_cons, hne]
    rw [h1, List.map_congr_left hrest, ih hnd.2]

/-- C1: `getMedianResponseTime` walks the buckets in ascending key order with
a running position counter starting at `(numRequests-1)/2` (truncating
division) and returns the first key whose count exceeds the remaining
position; an empty histogram, or one whose counts sum to at most the starting
position, yields 0; on `\x7b100: 3, 200: 2, 300: 1\x7d` with 6 requests the
median is 100, and on `\x7b100: 1, 200: 1, 300: 4\x7d` with 6 requests it is
300. -/
theorem median_matches_claim (n : Int) (l : List (Int × Int)) :
    getMedianResponseTime n l = medianFromSpec n l ∧
    ((l.map Prod.fst).Nodup → (∀ p ∈ l, 0 ≤ p.2) →
      (l.map Prod.snd).sum ≤ (n - 1).tdiv 2 → getMedianResponseTime n l = 0) ∧
    getMedianResponseTime 6 [(100, 3), (200, 2), (300, 1)] = 100 ∧
    getMedianResponseTime 6 [(100, 1), (200, 1), (300, 4)] = 300 := by
  refine ⟨getMedianResponseTime_eq_medianFromSpec n l, ?_, by decide, by decide⟩
  intro hnd hpos hsum
  unfold getMedianResponseTime
  by_cases hemp : l.isEmpty
  · simp [hemp]
  · simp only [hemp, if_false]
    apply medianWalk_eq_zero_of_counts_le
    · intro k _
      exact mapGet_nonneg l hpos k
    · have hperm : ((l.map Prod.fst).insertionSort (· ≤ ·)).Perm
          (l.map Prod.fst) := List.perm_insertionSort _ _
      have := (hperm.map (mapGet l)).sum_eq
      rw [this, map_mapGet_keys l hnd]
      exact hsum

/-- C1 witness: the theorem instantiated at a histogram whose counts sum to
at most the starting position, with every hypothesis discharged. -/
theorem median_matches_claim_witness : getMedianResponseTime 9 [(5, 1)] = 0 :=
  (median_matches_claim 9 [(5, 1)]).2.1 (by decide) (by decide) (by decide)

/-- C3: with a zero request count the three quotient-based derivations are
exactly zero, and with a non-zero count they are the respective quotients:
`totalResponseTime / numRequests` as an exact ratio, truncating integer
division for the content length, and `totalFailures / totalRequests` as an
exact ratio. -/
theorem zero_request_guards (n t f r : Int) :
    getAvgResponseTime 0 t = 0 ∧
    getAvgContentLength 0 t = 0 ∧
    getTotalFailRatio 0 f = 0 ∧
    (n ≠ 0 → getAvgResponseTime n t = (t : Rat) / (n : Rat)) ∧
    (n ≠ 0 → getAvgContentLength n t = t.tdiv n) ∧
    (r ≠ 0 → getTotalFailRatio r f = (f : Rat) / (r : Rat)) := by
  refine ⟨rfl, rfl, rfl, ?_, ?_, ?_⟩ <;> intro h <;>
    simp [getAvgResponseTime, getAvgContentLength, getTotalFailRatio, h]

/-- C3 witness: the theorem applied at non-zero counts, with the non-zero
hypotheses discharged. -/
theorem zero_request_guards_witness :
    getAvgResponseTime 4 6 = (6 : Rat) / (4 : Rat) ∧ getAvgContentLength 4 6 = 1 ∧
    getTotalFailRatio 4 1 = (1 : Rat) / (4 : Rat) := by
  refine ⟨(zero_request_guards 4 6 1 4).2.2.2.1 (by decide), ?_, ?_⟩
  · have h := (zero_request_guards 4 6 1 4).2.2.2.2.1 (by decide)
    rw [h]; decide
  · exact (zero_request_guards 4 1 1 4).2.2.2.2.2 (by decide)

/-- C4: the rolling-rate derivations divide the count by the number of
distinct keys of the second-bucket map, ignore the map's values, return 0 for
an empty map, and give 10 for 40 requests over 4 distinct second keys. -/
theorem current_rate_matches_claim (n f : Int) (m : List (Int × Int)) :
    getCurrentRps n [] = 0 ∧
    getCurrentFailPerSec f [] = 0 ∧
    ((m.map Prod.fst).Nodup →
      getCurrentRps n m =
        if m.isEmpty then 0 else n.tdiv ((m.map Prod.fst).toFinset.card : Int)) ∧
    ((m.map Prod.fst).Nodup →
      getCurrentFailPerSec f m =
        if m.isEmpty then 0 else f.tdiv ((m.map Prod.fst).toFinset.card : Int)) ∧
    getCurrentRps 40 [(1, 7), (2, 9), (3, 11), (4, 13)] = 10 := by
  have hcard : (m.map Prod.fst).Nodup → ((m.map Prod.fst).toFinset.card : Int) = m.length := by
    intro hnd
    rw [List.toFinset_card_of_nodup hnd, List.length_map]
  have hne : ∀ (p : Int × Int) (rest : List (Int × Int)), (((p :: rest).length : Int)) ≠ 0 := by
    intro p rest
    simp [List.length_cons]
    omega
  refine ⟨rfl, rfl, ?_, ?_, by decide⟩ <;> intro hnd <;> rw [hcard hnd]
  · cases m with
    | nil => rfl
    | cons p rest =>
      simp only [List.isEmpty_cons, Bool.false_eq_true, if_false]
      simp [getCurrentRps, hne p rest]
      intro habs
      exact absurd habs (by omega)
  · cases m with
    | nil => rfl
    | cons p rest =>
      simp only [List.isEmpty_cons, Bool.false_eq_true, if_false]
      simp [getCurrentFailPerSec, hne p rest]
      intro habs
      exact absurd habs (by omega)

/-- C4 witness: the theorem applied to a concrete four-key map, with the
distinct-keys hypotheses discharged. -/
theorem current_rate_matches_claim_witness :
    getCurrentRps 40 [(1, 7), (2, 9), (3, 11), (4, 13)] =
      if ([(1, 7), (2, 9), (3, 11), (4, 13)] : List (Int × Int)).isEmpty then 0
      else (40 : Int).tdiv ((([(1, 7), (2, 9), (3, 11), (4, 13)] : List (Int × Int)).map
        Prod.fst).toFinset.card : Int) :=
  (current_rate_matches_claim 40 0 [(1, 7), (2, 9), (3, 11), (4, 13)]).2.2.1 (by decide)

/-- On association lists with distinct keys that are permutations of each
other, map lookup agrees everywhere. -/
theorem mapGet_perm (l l' : List (Int × Int)) (hperm : l.Perm l')
    (hnd : (l.map Prod.fst).Nodup) (k : Int) : mapGet l k = mapGet l' k := by
  unfold mapGet
  cases hf : l.find? (fun p => p.1 == k) with
  | none =>
    have hnone : l'.find? (fun p => p.1 == k) = none := by
      rw [List.find?_eq_none] at hf ⊢
      intro x hx
      exact hf x (hperm.mem_iff.mpr hx)
    rw [hnone]
  | some p =>
    have hpmem : p ∈ l := List.mem_of_find?_eq_some hf
    have h1 : p.1 = k := by simpa using List.find?_some hf
    have hsome : (l'.find? (fun p => p.1 == k)).isSome := by
      rw [List.find?_isSome]
      exact ⟨p, hperm.mem_iff.mp hpmem, by simpa using h1⟩
    obtain ⟨q, hq⟩ := Option.isSome_iff_exists.mp hsome
    have hqmem : q ∈ l := hperm.mem_iff.mpr (List.mem_of_find?_eq_some hq)
    have h2 : q.1 = k := by simpa using List.find?_some hq
    have heq : p = q := by
      apply List.inj_on_of_nodup_map hnd hpmem hqmem
      rw [h1, h2]
    rw [hq, heq]

/-- Under a permutation of the histogram's entries, the ascending key list
the walk visits is identical. -/
theorem sortedKeys_perm (l l' : List (Int × Int)) (hperm : l.Perm l') :
    (l.map Prod.fst).insertionSort (· ≤ ·) = (l'.map Prod.fst).insertionSort (· ≤ ·) := by
  refine List.eq_of_perm_of_sorted ?_
    (List.sorted_insertionSort _ _) (List.sorted_insertionSort _ _)
  exact (List.perm_insertionSort _ _).trans ((hperm.map _).trans
    (List.perm_insertionSort _ _).symm)

/-- C8: the six derivation functions are pure and deterministic — equal
inputs give equal results — and `getMedianResponseTime` does not depend on
the iteration order of the histogram map: permuting the entries of a map
with distinct keys leaves the result unchanged. -/
theorem derivations_deterministic :
    (∀ (n : Int) (l l' : List (Int × Int)), l.Perm l' → (l.map Prod.fst).Nodup →
      getMedianResponseTime n l = getMedianResponseTime n l') ∧
    (∀ n t : Int, getAvgResponseTime n t = getAvgResponseTime n t) ∧
    (∀ n t : Int, getAvgContentLength n t = getAvgContentLength n t) ∧
    (∀ (n : Int) (m : List (Int × Int)), getCurrentRps n m = getCurrentRps n m) ∧
    (∀ (f : Int) (m : List (Int × Int)), getCurrentFailPerSec f m = getCurrentFailPerSec f m) ∧
    (∀ r f : Int, getTotalFailRatio r f = getTotalFailRatio r f) := by
  refine ⟨?_, fun _ _ => rfl, fun _ _ => rfl, fun _ _ => rfl, fun _ _ => rfl, fun _ _ => rfl⟩
  intro n l l' hperm hnd
  unfold getMedianResponseTime
  have hiff : (l.isEmpty = true) ↔ (l'.isEmpty = true) := by
    simp only [List.isEmpty_iff_length_eq_zero, hperm.length_eq]
  have hemp : l.isEmpty = l'.isEmpty := by
    cases hb : l.isEmpty <;> cases hb' : l'.isEmpty <;> simp_all
  have hfun : mapGet l = mapGet l' := funext (mapGet_perm l l' hperm hnd)
  rw [← hemp, sortedKeys_perm l l' hperm, hfun]

/-- C8 witness: the median is unchanged under a concrete reordering of a
two-entry histogram, with both hypotheses discharged. -/
theorem derivations_deterministic_witness :
    getMedianResponseTime 4 [(10, 1), (20, 3)] = getMedianResponseTime 4 [(20, 3), (10, 1)] :=
  derivations_deterministic.1 4 [(10, 1), (20, 3)] [(20, 3), (10, 1)] (by decide) (by decide)

/-- A JSON document, the intermediate form of the `json.Marshal` /
`json.Unmarshal` transcoding step in `deserializeStatsEntry`
(src/output.go:216-236).  Numbers are exact rationals: the Go floats the
payload can carry are binary64 values, whose shortest decimal form Go
re-parses exactly. -/
inductive Json where
  | null : Json
  | num (q : Rat) : Json
  | str (s : String) : Json
  | arr (elems : List Json) : Json
  | obj (fields : List (String × Json)) : Json

/-- `json.Marshal` on the dynamic values of our payload universe (on which
it cannot fail): nil becomes `null`, numbers become number literals, a
`map[string]interface` value becomes an object with keys in ascending string
order, and a `map[int64]int64` value becomes an object whose keys are the
decimal strings of the int64 keys, sorted as strings (encoding/json orders
map keys by their string form). -/
def jsonMarshal : RawVal → Json
  | .rNil => .null
  | .rInt32 n => .num n
  | .rInt n => .num n
  | .rInt64 n => .num n
  | .rFloat64 q => .num q
  | .rString s => .str s
  | .rList xs => .arr (xs.attach.map (fun x => jsonMarshal x.1))
  | .rMap fields =>
      .obj ((fields.attach.map (fun p => (p.1.1, jsonMarshal p.1.2))).insertionSort
        (fun a b => a.1 ≤ b.1))
  | .rIntMap m =>
      .obj ((m.map (fun p => (toString p.1, Json.num p.2))).insertionSort
        (fun a b => a.1 ≤ b.1))
decreasing_by
  · have h := List.sizeOf_lt_of_mem x.2
    simp only [RawVal.rList.sizeOf_spec]
    omega
  · have h := List.sizeOf_lt_of_mem p.2
    obtain ⟨⟨a, b⟩, hmem⟩ := p
    simp only [Prod.mk.sizeOf_spec] at h
    simp only [RawVal.rMap.sizeOf_spec]
    omega

/-- src/stats.go is outside src/, so the target struct of the transcoding is
spec-modelled.  Modelled from the spec: the field names appear at the call
sites in src/output.go and the wire tags are the spec's raw-event shape
(`method`, `name`, `num_requests`, `num_failures`, `response_times`,
`total_response_time`, `total_content_length`, `min_response_time`,
`max_response_time`, `num_reqs_per_sec`, `num_fail_per_sec`).  The defaults
are the Go zero values, which `json.Unmarshal` leaves in place for absent
fields. -/
structure statsEntry where
  Method : String := ""
  Name : String := ""
  NumRequests : Int := 0
  NumFailures : Int := 0
  ResponseTimes : List (Int × Int) := []
  TotalResponseTime : Int := 0
  TotalContentLength : Int := 0
  MinResponseTime : Int := 0
  MaxResponseTime : Int := 0
  NumReqsPerSec : List (Int × Int) := []
  NumFailPerSec : List (Int × Int) := []
deriving DecidableEq, Repr

/-- Decoding a JSON value into a `string` struct field: `null` leaves the
current value, a string replaces it, anything else is a type-mismatch
error. -/
def goDecodeString (j : Json) (cur : String) : Except String String :=
  match j with
  | .null => .ok cur
  | .str s => .ok s
  | _ => .error ("json: cannot unmarshal value into field of type string")

/-- Decoding a JSON value into an `int64` struct field: only an integral
number literal is accepted (a fractional literal fails Go's ParseInt),
`null` leaves the current value. -/
def goDecodeInt64 (j : Json) (cur : Int) : Except String Int :=
  match j with
  | .null => .ok cur
  | .num q => if q.den = 1 then .ok q.num else .error ("json: cannot unmarshal number into field of type int64")
  | _ => .error ("json: cannot unmarshal value into field of type int64")

/-- Inserting one decoded pair into a `map[int64]int64`, overwriting the key
if it is already bound (Go map assignment). -/
def intMapInsert (m : List (Int × Int)) (k v : Int) : List (Int × Int) :=
  if m.any (fun p => p.1 == k) then m.map (fun p => if p.1 == k then (k, v) else p)
  else m ++ [(k, v)]

/-- Decoding a JSON value into a `map[int64]int64` struct field: an object
whose keys parse as int64 and whose values are integral numbers; `null`
leaves the current (nil) map. -/
def goDecodeIntMap (j : Json) (cur : List (Int × Int)) : Except String (List (Int × Int)) :=
  match j with
  | .null => .ok cur
  | .obj fields =>
      fields.foldlM (fun m p =>
        match p.1.toInt? with
        | none => .error ("json: cannot unmarshal object key into int64")
        | some k =>
          match p.2 with
          | .num q =>
            if q.den = 1 then .ok (intMapInsert m k q.num)
            else .error ("json: cannot unmarshal number into map value of type int64")
          | .null => .error ("json: cannot unmarshal null into map value of type int64")
          | _ => .error ("json: cannot unmarshal value into map value of type int64")) cur
  | _ => .error ("json: cannot unmarshal value into field of type map")

/-- One step of `json.Unmarshal` into `statsEntry`: route an object field by
its wire tag to the struct field it populates; unknown keys are ignored.
Go records the first mismatch and still returns it as the error, so
success/failure agrees with stopping at the first mismatch. -/
def applyStatsField (e : statsEntry) (field : String × Json) : Except String statsEntry :=
  match field.1 with
  | "method" => (goDecodeString field.2 e.Method).map (fun v => { e with Method := v })
  | "name" => (goDecodeString field.2 e.Name).map (fun v => { e with Name := v })
  | "num_requests" => (goDecodeInt64 field.2 e.NumRequests).map (fun v => { e with NumRequests := v })
  | "num_failures" => (goDecodeInt64 field.2 e.NumFailures).map (fun v => { e with NumFailures := v })
  | "response_times" => (goDecodeIntMap field.2 e.ResponseTimes).map (fun v => { e with ResponseTimes := v })
  | "total_response_time" => (goDecodeInt64 field.2 e.TotalResponseTime).map (fun v => { e with TotalResponseTime := v })
  | "total_content_length" => (goDecodeInt64 field.2 e.TotalContentLength).map (fun v => { e with TotalContentLength := v })
  | "min_response_time" => (goDecodeInt64 field.2 e.MinResponseTime).map (fun v => { e with MinResponseTime := v })
  | "max_response_time" => (goDecodeInt64 field.2 e.MaxResponseTime).map (fun v => { e with MaxResponseTime := v })
  | "num_reqs_per_sec" => (goDecodeIntMap field.2 e.NumReqsPerSec).map (fun v => { e with NumReqsPerSec := v })
  | "num_fail_per_sec" => (goDecodeIntMap field.2 e.NumFailPerSec).map (fun v => { e with NumFailPerSec := v })
  | _ => .ok e

/-- `json.Unmarshal(statBytes, &entry)` with `entry := statsEntry\x7b\x7d`
(src/output.go:221-224): `null` leaves the zero value untouched and
succeeds, an object populates the tagged fields, anything else is a
type-mismatch error. -/
def unmarshalStatsEntry (j : Json) : Except String statsEntry :=
  match j with
  | .null => .ok {}
  | .obj fields => fields.foldlM applyStatsField {}
  | _ => .error ("json: cannot unmarshal value into Go value of type statsEntry")

/-- src/output.go:161-169 `statsEntryOutput`: a `statsEntry` together with
the derived view computed from it. -/
structure statsEntryOutput extends statsEntry where
  medianResponseTime : Int
  avgResponseTime : Rat
  avgContentLength : Int
  currentRps : Int
  currentFailPerSec : Int
deriving DecidableEq, Repr

/-- src/output.go:171-178 `dataOutput` (the run snapshot).  The Go struct
also carries an `Errors` field that `convertData` never populates; it is
omitted here. -/
structure dataOutput where
  UserCount : Int
  TotalStats : statsEntryOutput
  TotalRPS : Int
  TotalFailRatio : Rat
  Stats : List statsEntryOutput
deriving DecidableEq, Repr

/-- src/output.go:216-236 `deserializeStatsEntry`: marshal the dynamic value
to JSON, unmarshal it into a `statsEntry` (failing on a structural
mismatch), then attach the freshly computed derived view. -/
def deserializeStatsEntry (stat : RawVal) : Except String statsEntryOutput :=
  match unmarshalStatsEntry (jsonMarshal stat) with
  | .error e => .error e
  | .ok entry =>
      .ok { entry with
            medianResponseTime := getMedianResponseTime entry.NumRequests entry.ResponseTimes
            avgResponseTime := getAvgResponseTime entry.NumRequests entry.TotalResponseTime
            avgContentLength := getAvgContentLength entry.NumRequests entry.TotalContentLength
            currentRps := getCurrentRps entry.NumRequests entry.NumReqsPerSec
            currentFailPerSec := getCurrentFailPerSec entry.NumFailures entry.NumFailPerSec }

/-- The `for _, stat := range stats` loop of `convertData`
(src/output.go:206-212): deserialize each element in order, returning the
first error and otherwise appending the outputs in input order. -/
def convertStatsList : List RawVal → Except String (List statsEntryOutput)
  | [] => .ok []
  | x :: rest =>
      match deserializeStatsEntry x with
      | .error e => .error e
      | .ok y =>
          match convertStatsList rest with
          | .error e => .error e
          | .ok ys => .ok (y :: ys)

/-- src/output.go:180-214 `convertData`: assert `user_count` to `int32` and
`stats` to a list (a failed assertion is an immediate error with a nil
snapshot), deserialize `stats_total` (whatever it holds, including the nil
of a missing key), derive total RPS and total fail ratio from the total
entry's counters, and deserialize the per-group entries in input order. -/
def convertData (data : List (String × RawVal)) : Except String dataOutput :=
  match rawLookup data "user_count" with
  | .rInt32 userCount =>
    match rawLookup data "stats" with
    | .rList stats =>
      match deserializeStatsEntry (rawLookup data "stats_total") with
      | .error e => .error e
      | .ok entryTotalOutput =>
        match convertStatsList stats with
        | .error e => .error e
        | .ok statsOut =>
            .ok { UserCount := userCount
                  TotalStats := entryTotalOutput
                  TotalRPS := getCurrentRps entryTotalOutput.NumRequests entryTotalOutput.NumReqsPerSec
                  TotalFailRatio := getTotalFailRatio entryTotalOutput.NumRequests entryTotalOutput.NumFailures
                  Stats := statsOut }
    | _ => .error ("stats is not []interface\x7b\x7d")
  | _ => .error ("user_count is not int32")

/-- The statsEntryOutput that deserializing a nil value produces: the
zero-valued entry with its (all-zero) derived view. -/
def zeroStatsEntryOutput : statsEntryOutput :=
  { medianResponseTime := 0
    avgResponseTime := 0
    avgContentLength := 0
    currentRps := 0
    currentFailPerSec := 0 }

/-- Whether a dynamic value's type assertion `.(int32)` succeeds. -/
def isInt32 : RawVal → Bool
  | .rInt32 _ => true
  | _ => false

/-- Whether a dynamic value's type assertion to a list of values succeeds. -/
def isRawList : RawVal → Bool
  | .rList _ => true
  | _ => false

/-- The elements of a dynamic list value (empty for non-lists). -/
def rawListOf : RawVal → List RawVal
  | .rList xs => xs
  | _ => []

/-- Two-digit decimal rendering of a residue below 100. -/
def pad2 (n : Nat) : String :=
  if n < 10 then "0" ++ toString n else toString n

/-- `strconv.FormatFloat(f, 'f', 2, 64)` modelled over the exact rational:
round to the nearest hundredth, halves away from zero.  (The claims never
constrain this cell's text; only its position in the row.) -/
def formatRat2 (q : Rat) : String :=
  if q < 0 then
    let n := (-q * 100 + 1 / 2).floor.toNat
    "-" ++ toString (n / 100) ++ "." ++ pad2 (n % 100)
  else
    let n := (q * 100 + 1 / 2).floor.toNat
    toString (n / 100) ++ "." ++ pad2 (n % 100)

/-- The fixed header row of the console table (src/output.go:140). -/
def consoleHeader : List String :=
  ["Type", "Name", "# requests", "# fails", "Median", "Average", "Min", "Max",
   "Content Size", "# reqs/sec", "# fails/sec"]

/-- One table row of `ConsoleOutput.OnEvent` (src/output.go:142-156):
`strconv.FormatInt(_, 10)` is decimal `toString`. -/
def consoleStatRow (stat : statsEntryOutput) : List String :=
  [stat.Method, stat.Name, toString stat.NumRequests, toString stat.NumFailures,
   toString stat.medianResponseTime, formatRat2 stat.avgResponseTime,
   toString stat.MinResponseTime, toString stat.MaxResponseTime,
   toString stat.avgContentLength, toString stat.currentRps,
   toString stat.currentFailPerSec]

/-- The observable outcome of one `ConsoleOutput.OnEvent` call: either the
conversion error is logged and nothing is rendered, or the header and the
rows are rendered.  (The timestamped summary line and the writer plumbing
are I/O glue outside the model.) -/
inductive ConsoleTick where
  | convertError (msg : String) : ConsoleTick
  | rendered (header : List String) (rows : List (List String)) : ConsoleTick
deriving DecidableEq, Repr

/-- The pure core of `ConsoleOutput.OnEvent` (src/output.go:128-159): on a
conversion error, log and return without rendering; otherwise render the
table with one row per entry of `output.Stats`, in order. -/
def consoleOnEvent (data : List (String × RawVal)) : ConsoleTick :=
  match convertData data with
  | .error e => .convertError e
  | .ok out => .rendered consoleHeader (out.Stats.map consoleStatRow)

/-- The nine per-group gauge values for one (method, name) label pair, as
float64 (src/output.go:244-316). -/
structure GroupGauges where
  numRequests : Rat
  numFailures : Rat
  medianResponseTime : Rat
  avgResponseTime : Rat
  minResponseTime : Rat
  maxResponseTime : Rat
  avgContentLength : Rat
  currentRps : Rat
  currentFailPerSec : Rat
deriving DecidableEq, Repr

/-- The values `PrometheusPusherOutput.OnEvent` sets for one entry
(src/output.go:414-422), each cast to float64. -/
def gaugesOfStat (stat : statsEntryOutput) : GroupGauges :=
  { numRequests := (stat.NumRequests : Rat)
    numFailures := (stat.NumFailures : Rat)
    medianResponseTime := (stat.medianResponseTime : Rat)
    avgResponseTime := stat.avgResponseTime
    minResponseTime := (stat.MinResponseTime : Rat)
    maxResponseTime := (stat.MaxResponseTime : Rat)
    avgContentLength := (stat.avgContentLength : Rat)
    currentRps := (stat.currentRps : Rat)
    currentFailPerSec := (stat.currentFailPerSec : Rat) }

/-- The state of the gauge registry: the three run-level gauges and the
per-label-pair gauge vectors (`WithLabelValues` creates or reuses the child
for a label pair, so setting is an upsert keyed by (method, name)). -/
structure GaugeState where
  users : Rat := 0
  totalRPS : Rat := 0
  totalFailRatio : Rat := 0
  groups : List ((String × String) × GroupGauges) := []
deriving DecidableEq, Repr

/-- Setting the gauge child for a label pair: overwrite if present,
otherwise append. -/
def upsertGroup (gs : List ((String × String) × GroupGauges)) (key : String × String)
    (v : GroupGauges) : List ((String × String) × GroupGauges) :=
  if gs.any (fun p => p.1 == key) then gs.map (fun p => if p.1 == key then (key, v) else p)
  else gs ++ [(key, v)]

/-- The pure core of `PrometheusPusherOutput.OnEvent` (src/output.go:395-428):
on a conversion error, log and return with the gauges untouched and no push
attempted; otherwise overwrite every gauge with the fresh values and attempt
one push.  The returned Bool records whether a push was attempted — the
push's success is a transport concern outside the model, and a failed push
leaves the gauges set. -/
def promOnEvent (st : GaugeState) (data : List (String × RawVal)) : GaugeState × Bool :=
  match convertData data with
  | .error _ => (st, false)
  | .ok out =>
      let st1 := { st with
        users := (out.UserCount : Rat)
        totalRPS := (out.TotalRPS : Rat)
        totalFailRatio := out.TotalFailRatio }
      (out.Stats.foldl (fun s stat =>
        { s with groups := upsertGroup s.groups (stat.Method, stat.Name) (gaugesOfStat stat) })
        st1, true)

/-- C5: a raw event without the `user_count` key takes the failed type
assertion's branch: `convertData` returns the structural-mismatch error
`user_count is not int32` and no snapshot. -/
theorem convertData_missing_user_count (data : List (String × RawVal))
    (h : data.find? (fun p => p.1 == "user_count") = none) :
    convertData data = .error ("user_count is not int32") := by
  have hl : rawLookup data "user_count" = .rNil := by
    unfold rawLookup
    rw [h]
  unfold convertData
  rw [hl]

/-- C5 witness: the empty raw event has no `user_count` key. -/
theorem convertData_missing_user_count_witness :
    convertData [] = .error ("user_count is not int32") :=
  convertData_missing_user_count [] rfl

/-- C10: the `user_count` type assertion accepts only dynamic type `int32`;
an `int`, `int64` or `float64` value — even one holding the same number —
fails it, and `convertData` returns the error `user_count is not int32`
with no snapshot. -/
theorem convertData_user_count_not_int32 (data : List (String × RawVal)) :
    (∀ n : Int, rawLookup data "user_count" = .rInt n →
      convertData data = .error ("user_count is not int32")) ∧
    (∀ n : Int, rawLookup data "user_count" = .rInt64 n →
      convertData data = .error ("user_count is not int32")) ∧
    (∀ q : Rat, rawLookup data "user_count" = .rFloat64 q →
      convertData data = .error ("user_count is not int32")) := by
  refine ⟨?_, ?_, ?_⟩ <;> intro v h <;> unfold convertData <;> rw [h]

/-- C10 witness: a raw event whose `user_count` holds the int64 value 7. -/
theorem convertData_user_count_not_int32_witness :
    convertData [("user_count", .rInt64 7)] = .error ("user_count is not int32") :=
  (convertData_user_count_not_int32 [("user_count", .rInt64 7)]).2.1 7 rfl

/-- C9: with a valid `user_count` and `stats` but a missing (or nil)
`stats_total`, `convertData` succeeds: nil round-trips through JSON as
`null`, which unmarshals into the zero-valued entry, so the total entry and
every derived total metric are exactly 0. -/
theorem convertData_nil_stats_total (data : List (String × RawVal)) (n : Int)
    (xs : List RawVal) (statsOut : List statsEntryOutput)
    (h1 : rawLookup data "user_count" = .rInt32 n)
    (h2 : rawLookup data "stats" = .rList xs)
    (h3 : rawLookup data "stats_total" = .rNil)
    (h4 : convertStatsList xs = .ok statsOut) :
    convertData data = .ok { UserCount := n,
                             TotalStats := zeroStatsEntryOutput,
                             TotalRPS := 0,
                             TotalFailRatio := 0,
                             Stats := statsOut } ∧
    zeroStatsEntryOutput.medianResponseTime = 0 ∧
    zeroStatsEntryOutput.avgResponseTime = 0 ∧
    zeroStatsEntryOutput.avgContentLength = 0 ∧
    zeroStatsEntryOutput.currentRps = 0 ∧
    zeroStatsEntryOutput.currentFailPerSec = 0 := by
  refine ⟨?_, rfl, rfl, rfl, rfl, rfl⟩
  have hm : jsonMarshal RawVal.rNil = Json.null := by simp [jsonMarshal]
  have hdz : deserializeStatsEntry RawVal.rNil = .ok zeroStatsEntryOutput := by
    unfold deserializeStatsEntry
    rw [hm]
    rfl
  unfold convertData
  simp only [h1, h2, h3, hdz, h4]
  rfl

/-- C9 witness: a two-field raw event with an int32 user count, an empty
stats list and no `stats_total` key. -/
theorem convertData_nil_stats_total_witness :
    convertData [("user_count", .rInt32 2), ("stats", .rList [])] =
      .ok { UserCount := 2,
            TotalStats := zeroStatsEntryOutput,
            TotalRPS := 0,
            TotalFailRatio := 0,
            Stats := [] } :=
  (convertData_nil_stats_total [("user_count", .rInt32 2), ("stats", .rList [])]
    2 [] [] rfl rfl rfl rfl).1

/-- C7: in both sink variants a conversion failure on a tick is contained:
the console sink logs the error and renders nothing, the pusher sink leaves
every gauge untouched and attempts no push, and a failed tick has no effect
on how any later event is processed; a successful tick renders the table
from the snapshot. -/
theorem onEvent_failure_isolated :
    (∀ (data : List (String × RawVal)) (e : String),
      convertData data = .error e → consoleOnEvent data = .convertError e) ∧
    (∀ (data : List (String × RawVal)) (out : dataOutput),
      convertData data = .ok out →
      consoleOnEvent data = .rendered consoleHeader (out.Stats.map consoleStatRow)) ∧
    (∀ (st : GaugeState) (data : List (String × RawVal)) (e : String),
      convertData data = .error e → promOnEvent st data = (st, false)) ∧
    (∀ (st : GaugeState) (d1 d2 : List (String × RawVal)) (e : String),
      convertData d1 = .error e →
      promOnEvent (promOnEvent st d1).1 d2 = promOnEvent st d2) := by
  have hp : ∀ (st : GaugeState) (data : List (String × RawVal)) (e : String),
      convertData data = .error e → promOnEvent st data = (st, false) := by
    intro st data e h
    unfold promOnEvent
    rw [h]
  refine ⟨?_, ?_, hp, ?_⟩
  · intro data e h
    unfold consoleOnEvent
    rw [h]
  · intro data out h
    unfold consoleOnEvent
    rw [h]
  · intro st d1 d2 e h
    rw [hp st d1 e h]

/-- C7 witness: the empty event fails to convert; the console logs, the
pusher's state is unchanged with no push, and processing a (failing) second
event from the post-failure state equals processing it from the initial
state. -/
theorem onEvent_failure_isolated_witness :
    consoleOnEvent [] = .convertError ("user_count is not int32") ∧
    promOnEvent {} [] = ({}, false) ∧
    promOnEvent (promOnEvent {} []).1 [("user_count", .rInt64 7)] =
      promOnEvent {} [("user_count", .rInt64 7)] :=
  ⟨onEvent_failure_isolated.1 [] ("user_count is not int32") rfl,
   onEvent_failure_isolated.2.2.1 {} [] ("user_count is not int32") rfl,
   onEvent_failure_isolated.2.2.2 {} [] [("user_count", .rInt64 7)]
     ("user_count is not int32") rfl⟩

/-- A successful run of the per-group loop produces exactly one output per
input, in input order: position `i` of the output is the deserialization of
position `i` of the input. -/
theorem convertStatsList_ok : ∀ (xs : List RawVal) (ys : List statsEntryOutput),
    convertStatsList xs = .ok ys →
    ys.length = xs.length ∧ ∀ (i : Nat) (h1 : i < xs.length) (h2 : i < ys.length),
      deserializeStatsEntry (xs.get ⟨i, h1⟩) = .ok (ys.get ⟨i, h2⟩) := by
  intro xs
  induction xs with
  | nil =>
    intro ys h
    simp only [convertStatsList] at h
    injection h with h'
    subst h'
    exact ⟨rfl, fun i h1 _ => by simp at h1⟩
  | cons x rest ih =>
    intro ys h
    simp only [convertStatsList] at h
    cases hd : deserializeStatsEntry x with
    | error e => simp [hd] at h
    | ok y =>
      simp only [hd] at h
      cases hr : convertStatsList rest with
      | error e => simp [hr] at h
      | ok ys' =>
        simp only [hr] at h
        injection h with h'
        subst h'
        obtain ⟨hlen, hget⟩ := ih ys' hr
        refine ⟨by simp [hlen], ?_⟩
        intro i h1 h2
        cases i with
        | zero => exact hd
        | succ j =>
          exact hget j (by simp only [List.length_cons] at h1; omega)
            (by simp only [List.length_cons] at h2; omega)

/-- The loop fails exactly when some element of the list fails to
deserialize. -/
theorem convertStatsList_error_iff (xs : List RawVal) :
    (convertStatsList xs).isOk = false ↔
      ∃ x ∈ xs, (deserializeStatsEntry x).isOk = false := by
  induction xs with
  | nil => simp [convertStatsList, Except.isOk, Except.toBool]
  | cons x rest ih =>
    simp only [convertStatsList]
    cases hd : deserializeStatsEntry x with
    | error e =>
      constructor
      · intro _
        exact ⟨x, List.mem_cons_self x rest, by rw [hd]; rfl⟩
      · intro _
        rfl
    | ok y =>
      cases hr : convertStatsList rest with
      | error e =>
        constructor
        · intro _
          obtain ⟨z, hz, hfail⟩ := ih.mp (by rw [hr]; rfl)
          exact ⟨z, List.mem_cons_of_mem x hz, hfail⟩
        · intro _
          rfl
      | ok ys =>
        constructor
        · intro habs
          simp [Except.isOk, Except.toBool] at habs
        · rintro ⟨z, hz, hfail⟩
          rcases List.mem_cons.mp hz with hzx | hzr
          · subst hzx
            rw [hd] at hfail
            simp [Except.isOk, Except.toBool] at hfail
          · have hrf : (convertStatsList rest).isOk = false := ih.mpr ⟨z, hzr, hfail⟩
            rw [hr] at hrf
            simp [Except.isOk, Except.toBool] at hrf

/-- Inversion of a successful `convertData` run: every field of the snapshot
is exactly the decoded or derived value — the snapshot is fully populated. -/
theorem convertData_ok_inv (data : List (String × RawVal)) (out : dataOutput)
    (hok : convertData data = .ok out) :
    ∃ (n : Int) (xs : List RawVal),
      rawLookup data "user_count" = .rInt32 n ∧
      rawLookup data "stats" = .rList xs ∧
      deserializeStatsEntry (rawLookup data "stats_total") = .ok out.TotalStats ∧
      convertStatsList xs = .ok out.Stats ∧
      out.UserCount = n ∧
      out.TotalRPS = getCurrentRps out.TotalStats.NumRequests out.TotalStats.NumReqsPerSec ∧
      out.TotalFailRatio = getTotalFailRatio out.TotalStats.NumRequests out.TotalStats.NumFailures := by
  cases hu : rawLookup data "user_count"
  case rInt32 n =>
    cases hs : rawLookup data "stats"
    case rList xs =>
      unfold convertData at hok
      simp only [hu, hs] at hok
      cases hd : deserializeStatsEntry (rawLookup data "stats_total") with
      | error e =>
        rw [hd] at hok
        cases hok
      | ok tot =>
        rw [hd] at hok
        cases hl : convertStatsList xs with
        | error e =>
          rw [hl] at hok
          cases hok
        | ok ys =>
          rw [hl] at hok
          injection hok with h'
          subst h'
          exact ⟨n, xs, rfl, rfl, rfl, hl, rfl, rfl, rfl⟩
    all_goals (unfold convertData at hok; simp only [hu, hs] at hok; cases hok)
  all_goals (unfold convertData at hok; simp only [hu] at hok; cases hok)

/-- C6: when the stats list decodes, the snapshot's per-group entries — and
the console table's rows built from them — are in exactly the input order,
one output per input, nothing added, removed, reordered or deduplicated. -/
theorem convertData_stats_order (data : List (String × RawVal)) (out : dataOutput)
    (xs : List RawVal) (hok : convertData data = .ok out)
    (hstats : rawLookup data "stats" = .rList xs) :
    out.Stats.length = xs.length ∧
    (∀ (i : Nat) (h1 : i < xs.length) (h2 : i < out.Stats.length),
      deserializeStatsEntry (xs.get ⟨i, h1⟩) = .ok (out.Stats.get ⟨i, h2⟩)) ∧
    consoleOnEvent data = .rendered consoleHeader (out.Stats.map consoleStatRow) ∧
    (out.Stats.map consoleStatRow).length = xs.length := by
  obtain ⟨n, xs2, hu, hs, hd, hl, _, _, _⟩ := convertData_ok_inv data out hok
  rw [hstats] at hs
  injection hs with hxs
  rw [← hxs] at hl
  obtain ⟨hlen, hget⟩ := convertStatsList_ok xs out.Stats hl
  refine ⟨hlen, hget, ?_, by simp [hlen]⟩
  unfold consoleOnEvent
  rw [hok]

/-- C6 witness: the theorem applied to a concrete event with an empty stats
list, with both hypotheses discharged. -/
theorem convertData_stats_order_witness :
    consoleOnEvent [("user_count", RawVal.rInt32 1), ("stats", RawVal.rList [])] =
      .rendered consoleHeader [] := by
  have hm : jsonMarshal RawVal.rNil = Json.null := by simp [jsonMarshal]
  have hok : convertData [("user_count", RawVal.rInt32 1), ("stats", RawVal.rList [])] =
      .ok { UserCount := 1,
            TotalStats := zeroStatsEntryOutput,
            TotalRPS := 0,
            TotalFailRatio := 0,
            Stats := [] } := by
    unfold convertData
    rw [show rawLookup [("user_count", RawVal.rInt32 1), ("stats", RawVal.rList [])]
      "stats_total" = RawVal.rNil from rfl]
    unfold deserializeStatsEntry
    rw [hm]
    rfl
  exact (convertData_stats_order [("user_count", RawVal.rInt32 1), ("stats", RawVal.rList [])]
    { UserCount := 1,
      TotalStats := zeroStatsEntryOutput,
      TotalRPS := 0,
      TotalFailRatio := 0,
      Stats := [] } [] hok rfl).2.2.1

/-- C2 counterexample: the claim says absence of any required field — the
`stats_total` object included — is an error, but a raw event with a valid
`user_count` and `stats` and NO `stats_total` key converts successfully. -/
theorem convertData_absent_stats_total_ok :
    convertData [("user_count", RawVal.rInt32 1), ("stats", RawVal.rList [])] =
      .ok { UserCount := 1,
            TotalStats := zeroStatsEntryOutput,
            TotalRPS := 0,
            TotalFailRatio := 0,
            Stats := [] } := by
  have hm : jsonMarshal RawVal.rNil = Json.null := by simp [jsonMarshal]
  unfold convertData
  rw [show rawLookup [("user_count", RawVal.rInt32 1), ("stats", RawVal.rList [])]
    "stats_total" = RawVal.rNil from rfl]
  unfold deserializeStatsEntry
  rw [hm]
  rfl

/-- C2 (amended): `convertData` fails exactly when `user_count` is absent
or not an int32, `stats` is absent or not a list, or transcoding of
`stats_total` or of some per-group object fails; an absent `stats_total`
(or absent fields inside an object) decode as zero values instead of
erroring.  On success the snapshot is fully populated from the decoded
values; on failure no snapshot is produced. -/
theorem convertData_error_characterization (data : List (String × RawVal)) :
    ((convertData data).isOk = false ↔
      (isInt32 (rawLookup data "user_count") = false ∨
       isRawList (rawLookup data "stats") = false ∨
       (deserializeStatsEntry (rawLookup data "stats_total")).isOk = false ∨
       ∃ x ∈ rawListOf (rawLookup data "stats"), (deserializeStatsEntry x).isOk = false)) ∧
    (∀ out : dataOutput, convertData data = .ok out →
      ∃ (n : Int) (xs : List RawVal),
        rawLookup data "user_count" = .rInt32 n ∧
        rawLookup data "stats" = .rList xs ∧
        deserializeStatsEntry (rawLookup data "stats_total") = .ok out.TotalStats ∧
        convertStatsList xs = .ok out.Stats ∧
        out.UserCount = n ∧
        out.TotalRPS = getCurrentRps out.TotalStats.NumRequests out.TotalStats.NumReqsPerSec ∧
        out.TotalFailRatio = getTotalFailRatio out.TotalStats.NumRequests out.TotalStats.NumFailures) := by
  refine ⟨?_, fun out hok => convertData_ok_inv data out hok⟩
  cases hu : rawLookup data "user_count"
  case rInt32 n =>
    cases hs : rawLookup data "stats"
    case rList xs =>
      unfold convertData
      simp only [hu, hs, isInt32, isRawList, rawListOf]
      cases hd : deserializeStatsEntry (rawLookup data "stats_total") with
      | error e =>
        constructor
        · intro _
          right
          right
          left
          rfl
        · intro _
          rfl
      | ok tot =>
        cases hl : convertStatsList xs with
        | error e =>
          constructor
          · intro _
            right
            right
            right
            exact (convertStatsList_error_iff xs).mp (by rw [hl]; rfl)
          · intro _
            rfl
        | ok ys =>
          constructor
          · intro habs
            simp [Except.isOk, Except.toBool] at habs
          · rintro (habs | habs | habs | habs)
            · simp at habs
            · simp at habs
            · simp [Except.isOk, Except.toBool] at habs
            · have hfalse : (convertStatsList xs).isOk = false :=
                (convertStatsList_error_iff xs).mpr habs
              rw [hl] at hfalse
              simp [Except.isOk, Except.toBool] at hfalse
    all_goals (unfold convertData
               simp only [hu, hs, isInt32, isRawList, rawListOf]
               simp [Except.isOk, Except.toBool])
  all_goals (unfold convertData
             simp only [hu, isInt32, isRawList, rawListOf]
             simp [Except.isOk, Except.toBool])

/-- C2 witness for the amended theorem's conditional part: full population
of a concrete successful conversion, with the success hypothesis
discharged. -/
theorem convertData_error_characterization_witness :
    ∃ (n : Int) (xs : List RawVal),
      rawLookup [("user_count", RawVal.rInt32 3), ("stats", RawVal.rList [])]
        "user_count" = .rInt32 n ∧
      rawLookup [("user_count", RawVal.rInt32 3), ("stats", RawVal.rList [])]
        "stats" = .rList xs := by
  have hm : jsonMarshal RawVal.rNil = Json.null := by simp [jsonMarshal]
  have hok : convertData [("user_count", RawVal.rInt32 3), ("stats", RawVal.rList [])] =
      .ok { UserCount := 3,
            TotalStats := zeroStatsEntryOutput,
            TotalRPS := 0,
            TotalFailRatio := 0,
            Stats := [] } := by
    unfold convertData
    rw [show rawLookup [("user_count", RawVal.rInt32 3), ("stats", RawVal.rList [])]
      "stats_total" = RawVal.rNil from rfl]
    unfold deserializeStatsEntry
    rw [hm]
    rfl
  obtain ⟨n, xs, h1, h2, _⟩ :=
    (convertData_error_characterization
      [("user_count", RawVal.rInt32 3), ("stats", RawVal.rList [])]).2
      { UserCount := 3,
        TotalStats := zeroStatsEntryOutput,
        TotalRPS := 0,
        TotalFailRatio := 0,
        Stats := [] } hok
  exact ⟨n, xs, h1, h2⟩

end Boomer
